import Mathlib

set_option maxHeartbeats 1000000

/-!
Shallow embedding of the virtio-fs vhost-user transport core:
the daemon-side reply/worker paths of `contrib/virtiofsd/fuse_virtio.c`
and the device-side DAX slave operations of the vhost-user-fs device
(`vhost_user_fs_slave_map` / `_unmap` / `_sync` / `_io`).

Guest memory segments are modelled by their byte contents, machine
integers by `Nat` with explicit `% 2^64` where u64 wrap-around matters,
and system calls (`mmap`, `msync`, `pread`/`pwrite`,
`memory_region_find`, `vu_queue_pop`) by explicit oracle parameters.
Lock and queue operations are recorded as event traces.
-/

/-- A byte of guest or daemon memory. -/
abbrev Byte := Nat

/-- One iovec segment, represented by its byte contents
(`iov_base` points at the list, `iov_len` is its length). -/
abbrev Iovec := List Byte

/-- `iov_size`: total byte length of an iovec array. -/
def iov_size (sg : List Iovec) : Nat := (sg.map List.length).sum

/-- The byte stream described by an iovec array. -/
def iov_bytes (sg : List Iovec) : List Byte := sg.flatten

/-- Destination-cursor bookkeeping of `copy_iov` (fuse_virtio.c:178):
write `chunk` into the destination segments starting `pos` bytes into
them, preserving the segment boundaries.  The C code tracks the same
position as the advancing `dst_iov` pointer plus `dst_offset`, and
performs the writes in `memcpy` pieces clamped to the current
destination segment. -/
def writeAt : List Iovec → Nat → List Byte → List Iovec
  | [], _, _ => []
  | d :: ds, pos, chunk =>
    if d.length ≤ pos then
      d :: writeAt ds (pos - d.length) chunk
    else
      (d.take pos ++ chunk.take (d.length - pos) ++ d.drop (pos + chunk.length)) ::
        writeAt ds 0 (chunk.drop (d.length - pos))

/-- Outer loop of `copy_iov` (fuse_virtio.c:183): walk the source
segments, clamp each to the bytes still to copy (`src_len > to_copy`),
write it at the destination cursor, and advance. -/
def copy_iov_loop : List Iovec → List Iovec → Nat → Nat → List Iovec
  | [], dst, _, _ => dst
  | s :: ss, dst, pos, toCopy =>
    if toCopy = 0 then dst
    else
      copy_iov_loop ss (writeAt dst pos (s.take toCopy))
        (pos + (s.take toCopy).length) (toCopy - (s.take toCopy).length)

/-- `copy_iov` (fuse_virtio.c:178): copy `toCopy` bytes from one iovec
array to another across arbitrarily aligned boundaries.  The caller must
have checked sizes (the C code asserts on overrun). -/
def copy_iov (src dst : List Iovec) (toCopy : Nat) : List Iovec :=
  copy_iov_loop src dst 0 toCopy

/-- Size of `struct fuse_in_header` (fuse_kernel.h; fixed by the FUSE ABI,
the header file itself is not under src). -/
def fuse_in_header_size : Nat := 40

/-- Size of `struct fuse_out_header`. -/
def fuse_out_header_size : Nat := 16

/-- Size of `struct fuse_write_in`. -/
def fuse_write_in_size : Nat := 40

/-- Size of `struct fuse_read_in`. -/
def fuse_read_in_size : Nat := 40

/-- FUSE opcode `FUSE_READ` (fuse_kernel.h). -/
def FUSE_READ : Nat := 15

/-- FUSE opcode `FUSE_WRITE` (fuse_kernel.h). -/
def FUSE_WRITE : Nat := 16

/-- errno magnitudes used by the embedded code. -/
def E2BIG : Int := 7

def EFAULT : Int := 14

def ENOSPC : Int := 28

def EOPNOTSUPP : Int := 95

/-- Observable lock/queue actions of the daemon's reply paths, in program
order. -/
inductive Event
  | rdlock
  | rdunlock
  | vqLock
  | vqUnlock
  | popNotifyQueue (ok : Bool)
  | pushReq (len : Nat)
  | notifyReq
  | pushNotifyQueue (len : Nat)
  | notifyNotifyQueue
  deriving DecidableEq

/-- Result of `virtio_send_notify_msg`. -/
structure NotifySendResult where
  ret : Int
  events : List Event
  pushedLen : Option Nat
  deriving DecidableEq

/-- `virtio_send_notify_msg` (fuse_virtio.c:218).  `popResult` is what
`vu_queue_pop` on the notification queue (index 1) returns: `none`, or
the popped element's sink (`in`) iovecs.  Note the faithful trace: the
`!req` path returns while still holding both locks, and the two
too-small error paths free the popped element without pushing it. -/
def virtio_send_notify_msg (notify_enabled : Bool)
    (popResult : Option (List Iovec)) (iov : List Iovec) : NotifySendResult :=
  let tosend_len := iov_size iov
  if ¬notify_enabled then ⟨-EOPNOTSUPP, [], none⟩
  else
    match popResult with
    | none => ⟨-ENOSPC, [.rdlock, .vqLock, .popNotifyQueue false], none⟩
    | some in_sg =>
      let evs := [Event.rdlock, .vqLock, .popNotifyQueue true, .vqUnlock, .rdunlock]
      let in_len := iov_size in_sg
      if in_len < fuse_out_header_size then ⟨-E2BIG, evs, none⟩
      else if in_len < tosend_len then ⟨-E2BIG, evs, none⟩
      else
        ⟨0,
          evs ++ [.rdlock, .vqLock, .pushNotifyQueue tosend_len,
            .notifyNotifyQueue, .vqUnlock, .rdunlock],
          some tosend_len⟩

/-- Result of `virtio_send_msg` on a request element: return value, event
trace, the request's `reply_sent` flag after the call, and the element's
sink iovec contents after the call. -/
structure SendMsgResult where
  ret : Int
  events : List Event
  reply_sent : Bool
  sink : List Iovec
  deriving DecidableEq

/-- `virtio_send_msg` (fuse_virtio.c:298).  `unique` is the
`fuse_out_header.unique` field of `iov[0]`; `unique = 0` delegates to the
notification path.  `in_sg` is the request element's sink (`in`) iovec
array, `reply_sent0` the request's `reply_sent` flag on entry (the C
code asserts it is false). -/
def virtio_send_msg (notify_enabled : Bool) (popResult : Option (List Iovec))
    (unique : Nat) (iov : List Iovec) (reply_sent0 : Bool)
    (in_sg : List Iovec) : SendMsgResult :=
  let tosend_len := iov_size iov
  if unique = 0 then
    let r := virtio_send_notify_msg notify_enabled popResult iov
    ⟨r.ret, r.events, reply_sent0, in_sg⟩
  else
    let in_len := iov_size in_sg
    if in_len < fuse_out_header_size then ⟨-E2BIG, [], reply_sent0, in_sg⟩
    else if in_len < tosend_len then ⟨-E2BIG, [], reply_sent0, in_sg⟩
    else
      ⟨0, [.rdlock, .vqLock, .pushReq tosend_len, .notifyReq, .vqUnlock, .rdunlock],
        true, copy_iov iov in_sg tosend_len⟩

/-- The two fatal preconditions `fv_queue_worker` enforces
(fuse_virtio.c:589-614): the readable prefix of the out iovecs
(`out_num - bad_out_num` entries) must hold at least a `fuse_in_header`,
and the total bytes of all out iovecs must not exceed the session's
buffer size.  Returns `true` when the worker hits `assert(0)`. -/
def fv_worker_fatal (bufsize : Nat) (outLens : List Nat) (bad_out_num : Nat) : Bool :=
  let out_num_readable := outLens.length - bad_out_num
  let out_len_readable := (outLens.take out_num_readable).sum
  let out_len := outLens.sum
  decide (out_len_readable < fuse_in_header_size) || decide (bufsize < out_len)

/-- The buffer vector the worker hands to the session: the bytes staged
in the bounce buffer, plus the iovec segments exposed in place (zero
copy) as further buffer-vector entries. -/
structure WorkerBufv where
  bounce : List Byte
  inplace : List Iovec
  deriving DecidableEq

/-- The `!req->bad_out_num` half of the worker's input reconstruction
(fuse_virtio.c:675-727): the zero-copy write fast path when
`out_num > 2`, the first iovec is exactly a `fuse_in_header`, the decoded
opcode is `FUSE_WRITE` and the second iovec is exactly a
`fuse_write_in`; otherwise the generic gather-copy path. -/
def fv_mappable_bufv (out_sg : List Iovec) (opcode : Nat) : WorkerBufv :=
  let fast : Bool :=
    decide (2 < out_sg.length) &&
      decide ((out_sg.headD []).length = fuse_in_header_size) &&
      decide (opcode = FUSE_WRITE) &&
      decide ((out_sg.getD 1 []).length = fuse_write_in_size)
  if fast then ⟨out_sg.headD [] ++ out_sg.getD 1 [], out_sg.drop 2⟩
  else ⟨iov_bytes out_sg, []⟩

/-- Input-reconstruction strategy selection of `fv_queue_worker`
(fuse_virtio.c:618-728).  `opcode` is the opcode decoded from the copied
first header.  `none` models the `fv_panic` call on an unhandled
unmappable layout.  When `bad_out_num ≠ 0` the second block is skipped
and the buffer vector built by the unmappable-write block is used; when
`bad_in_num ≠ 0` and `bad_out_num = 0` (unmappable READ) control falls
through to the generic path. -/
def fv_reconstruct (bad_in_num bad_out_num : Nat) (out_sg : List Iovec)
    (opcode : Nat) : Option WorkerBufv :=
  let out_num := out_sg.length
  let out_num_readable := out_num - bad_out_num
  if bad_in_num ≠ 0 ∨ bad_out_num ≠ 0 then
    let unmappableWrite : Bool :=
      decide (2 < out_num) && decide (2 ≤ out_num_readable) &&
        decide (bad_in_num = 0) &&
        decide ((out_sg.headD []).length = fuse_in_header_size) &&
        decide (opcode = FUSE_WRITE) &&
        decide ((out_sg.getD 1 []).length = fuse_write_in_size)
    let unmappableRead : Bool :=
      decide (out_num = 2) && decide (out_num_readable = 2) &&
        decide (bad_in_num ≠ 0) &&
        decide ((out_sg.headD []).length = fuse_in_header_size) &&
        decide (opcode = FUSE_READ) &&
        decide ((out_sg.getD 1 []).length = fuse_read_in_size)
    if !(unmappableWrite || unmappableRead) then none
    else if bad_out_num ≠ 0 then
      some ⟨out_sg.headD [] ++ out_sg.getD 1 [], out_sg.drop 2⟩
    else some (fv_mappable_bufv out_sg opcode)
  else some (fv_mappable_bufv out_sg opcode)

/-- One call the FUSE session makes back into the transport while
handling a request: a plain reply (`virtio_send_msg`; `unique = 0` makes
it a notification, which operates on the notification queue and never on
this request's element), or a data reply (`virtio_send_data_iov`), whose
`preadv`/slave-IO loop outcome is summarised by `loopRes`:
`LoopOutcome.fail e` is a failed read (`goto err`, no push),
`LoopOutcome.fin r` means the loop finished leaving `r` bytes
unsatisfied (EOF shortens the reply by `r`). -/
inductive LoopOutcome
  | fail (e : Int)
  | fin (remaining : Nat)
  deriving DecidableEq

/-- See `LoopOutcome`. -/
inductive Attempt
  | reply (iov : List Iovec) (unique : Nat)
  | dataReply (iov : List Iovec) (bodyLen : Nat) (loopRes : LoopOutcome)
  deriving DecidableEq

/-- Effect of one session call on the request's element: the new
`reply_sent` flag and the length pushed for this element, if any.
Mirrors the checks, push and `reply_sent` discipline of
`virtio_send_msg` (fuse_virtio.c:298-364) and `virtio_send_data_iov`
(fuse_virtio.c:372-559).  When `reply_sent` is already set, the C
`assert(!req->reply_sent)` aborts the process, so no second push of the
element can ever occur; the model accordingly produces none. -/
def attempt_send (reply_sent : Bool) (in_sg : List Iovec) (bad_in_num : Nat) :
    Attempt → Bool × Option Nat
  | .reply iov unique =>
    if unique = 0 then (reply_sent, none)
    else if reply_sent then (reply_sent, none)
    else
      let tosend_len := iov_size iov
      if iov_size in_sg < fuse_out_header_size then (reply_sent, none)
      else if iov_size in_sg < tosend_len then (reply_sent, none)
      else (true, some tosend_len)
  | .dataReply iov bodyLen loopRes =>
    if reply_sent then (reply_sent, none)
    else
      let tosend_len := iov_size iov + bodyLen
      if iov_size (in_sg.take (in_sg.length - bad_in_num)) < fuse_out_header_size then
        (reply_sent, none)
      else if iov_size in_sg < tosend_len then (reply_sent, none)
      else
        match loopRes with
        | .fail _ => (reply_sent, none)
        | .fin remaining => (true, some (tosend_len - remaining))

/-- One step of the session fold: perform the call and append any push
of this element. -/
def session_step (in_sg : List Iovec) (bad_in_num : Nat) (st : Bool × List Nat)
    (a : Attempt) : Bool × List Nat :=
  match attempt_send st.1 in_sg bad_in_num a with
  | (sent, some n) => (sent, st.2 ++ [n])
  | (sent, none) => (sent, st.2)

/-- Fold the session's calls over the request, collecting the lengths
pushed for this element, in order. -/
def session_calls (in_sg : List Iovec) (bad_in_num : Nat)
    (attempts : List Attempt) : Bool × List Nat :=
  attempts.foldl (session_step in_sg bad_in_num) (false, [])

/-- Tail of `fv_queue_worker` (fuse_virtio.c:737-750): if the session
sent no reply, the element is still pushed back with length zero. -/
def worker_recycle (in_sg : List Iovec) (bad_in_num : Nat)
    (attempts : List Attempt) : List Nat :=
  let st := session_calls in_sg bad_in_num attempts
  if st.1 then st.2 else st.2 ++ [0]

/-- The length of the first successful reply among the session's calls,
if any: the push length the claim predicts. -/
def firstReplyLen (in_sg : List Iovec) (bad_in_num : Nat) :
    List Attempt → Option Nat
  | [] => none
  | a :: rest =>
    match attempt_send false in_sg bad_in_num a with
    | (true, p) => p
    | (false, _) => firstReplyLen in_sg bad_in_num rest

/-- `fv_queue_worker` (fuse_virtio.c:562-755) for one popped request:
`none` when a fatal precondition or an unhandled unmappable layout
panics the daemon before the session runs, otherwise the lengths pushed
for the element, in order. -/
def fv_queue_worker_pushes (bufsize : Nat) (out_sg : List Iovec)
    (bad_out_num bad_in_num opcode : Nat) (in_sg : List Iovec)
    (attempts : List Attempt) : Option (List Nat) :=
  if fv_worker_fatal bufsize (out_sg.map List.length) bad_out_num then none
  else
    match fv_reconstruct bad_in_num bad_out_num out_sg opcode with
    | none => none
    | some _ => some (worker_recycle in_sg bad_in_num attempts)

/-- One entry of `VhostUserFSSlaveMsg`: `{flags, fd_offset, c_offset,
len}`, all u64 values (< 2^64). -/
structure SlaveEntry where
  flags : Nat
  fd_offset : Nat
  c_offset : Nat
  len : Nat
  deriving DecidableEq

/-- 2^64: the modulus of u64 arithmetic. -/
def U64 : Nat := 2 ^ 64

/-- `~(uint64_t)0`. -/
def U64MAX : Nat := 2 ^ 64 - 1

def VHOST_USER_FS_FLAG_MAP_R : Nat := 1

def VHOST_USER_FS_FLAG_MAP_W : Nat := 2

/-- The rejection test shared by map/unmap/sync:
`(c_offset + len) < len` computed in u64 (wrap-around), or
`(c_offset + len) > cache_size`. -/
def badRange (cache_size c_offset len : Nat) : Bool :=
  decide ((c_offset + len) % U64 < len) ||
    decide (cache_size < (c_offset + len) % U64)

/-- Device-side actions of `vhost_user_fs_slave_map`: a successfully
installed `MAP_SHARED | MAP_FIXED` file mapping for entry `i`, or the
rollback call `vhost_user_fs_slave_unmap(dev, sm)` on the same
message. -/
inductive MapEvent
  | mmapFixed (i : Nat) (e : SlaveEntry)
  | rollbackUnmap (sm : List SlaveEntry)
  deriving DecidableEq

/-- Entry loop of `vhost_user_fs_slave_map`.  `mmapErr i = some err`
models `mmap` failing with `errno = err` on entry `i`; `none` models
success.  The loop `break`s on the first failure. -/
def map_loop (cache_size : Nat) (mmapErr : Nat → Option Nat) :
    Nat → List SlaveEntry → Int × List MapEvent
  | _, [] => (0, [])
  | i, e :: rest =>
    if e.len = 0 then map_loop cache_size mmapErr (i + 1) rest
    else if badRange cache_size e.c_offset e.len then (-1, [])
    else
      match mmapErr i with
      | some err => (-(err : Int), [])
      | none =>
        let r := map_loop cache_size mmapErr (i + 1) rest
        (r.1, .mmapFixed i e :: r.2)

/-- `vhost_user_fs_slave_map` (device side): returns the signed result
(`(uint64_t)res` in C; negative = errno-style failure) and the trace of
device actions. -/
def vhost_user_fs_slave_map (cache_size : Nat) (fd : Int)
    (mmapErr : Nat → Option Nat) (sm : List SlaveEntry) : Int × List MapEvent :=
  if cache_size = 0 then (-1, [])
  else if fd < 0 then (-1, [])
  else
    let r := map_loop cache_size mmapErr 0 sm
    if r.1 ≠ 0 then (r.1, r.2 ++ [.rollbackUnmap sm]) else r

/-- Entry loop of `vhost_user_fs_slave_unmap`: rewrites `len = ~0`
entries to `cache_size` in place, validates bounds, and keeps going on
individual failures (`res` records the last one).  `munmapErr i` models
the anonymous `PROT_NONE` `mmap` failing with that errno on entry `i`.
Returns the final `res` and the message as left in the caller's
memory. -/
def unmap_loop (cache_size : Nat) (munmapErr : Nat → Option Nat) :
    Nat → List SlaveEntry → Int → Int × List SlaveEntry
  | _, [], res => (res, [])
  | i, e :: rest, res =>
    if e.len = 0 then
      let r := unmap_loop cache_size munmapErr (i + 1) rest res
      (r.1, e :: r.2)
    else
      let e' := if e.len = U64MAX then { e with len := cache_size } else e
      if badRange cache_size e'.c_offset e'.len then
        let r := unmap_loop cache_size munmapErr (i + 1) rest (-1)
        (r.1, e' :: r.2)
      else
        let res' := match munmapErr i with
          | some err => -(err : Int)
          | none => res
        let r := unmap_loop cache_size munmapErr (i + 1) rest res'
        (r.1, e' :: r.2)

/-- `vhost_user_fs_slave_unmap` (device side): result and the (mutated)
message.  With the DAX cache disabled, a whole-range unmap
(`sm->len[0] == ~0`) is silently accepted (the unmount path); any other
unmap is an error. -/
def vhost_user_fs_slave_unmap (cache_size : Nat) (munmapErr : Nat → Option Nat)
    (sm : List SlaveEntry) : Int × List SlaveEntry :=
  if cache_size = 0 then
    if (sm.headD ⟨0, 0, 0, 0⟩).len = U64MAX then (0, sm) else (-1, sm)
  else unmap_loop cache_size munmapErr 0 sm 0

/-- Entry loop of `vhost_user_fs_slave_sync`: validates bounds and
`msync`s each non-empty entry, continuing past individual failures.
`msyncErr i` models `msync` failing with that errno on entry `i`. -/
def sync_loop (cache_size : Nat) (msyncErr : Nat → Option Nat) :
    Nat → List SlaveEntry → Int → Int
  | _, [], res => res
  | i, e :: rest, res =>
    if e.len = 0 then sync_loop cache_size msyncErr (i + 1) rest res
    else if badRange cache_size e.c_offset e.len then
      sync_loop cache_size msyncErr (i + 1) rest (-1)
    else
      match msyncErr i with
      | some err => sync_loop cache_size msyncErr (i + 1) rest (-(err : Int))
      | none => sync_loop cache_size msyncErr (i + 1) rest res

/-- `vhost_user_fs_slave_sync` (device side). -/
def vhost_user_fs_slave_sync (cache_size : Nat) (msyncErr : Nat → Option Nat)
    (sm : List SlaveEntry) : Int :=
  if cache_size = 0 then -1 else sync_loop cache_size msyncErr 0 sm 0

/-- Device-side actions of `vhost_user_fs_slave_io`: a `pread`/`pwrite`
call with its guest physical address, size and file offset, and the
final `close(fd)`. -/
inductive IoEvent
  | transfer (isRead : Bool) (gpa size fd_offset : Nat)
  | closeFd
  deriving DecidableEq

/-- Recursive worker for `io_entry_loop`; the first `Nat` is the fuel,
the second the remaining `len` of the C loop. -/
def io_entry_loop_go (find : Nat → Nat → Nat × Bool) (rwRes : Nat → Nat → Nat → Int)
    (isRead : Bool) (gpa fd_offset : Nat) : Nat → Nat → Int × Nat × List IoEvent
  | _, 0 => (0, 0, [])
  | 0, _ + 1 => (0, 0, [])
  | fuel + 1, l + 1 =>
    if min (find gpa (l + 1)).1 (l + 1) = 0 then (-EFAULT, 0, [])
    else if isRead ∧ (find gpa (l + 1)).2 then (-EFAULT, 0, [])
    else if rwRes gpa (min (find gpa (l + 1)).1 (l + 1)) fd_offset < 0 then
      (rwRes gpa (min (find gpa (l + 1)).1 (l + 1)) fd_offset, 0,
        [.transfer isRead gpa (min (find gpa (l + 1)).1 (l + 1)) fd_offset])
    else if rwRes gpa (min (find gpa (l + 1)).1 (l + 1)) fd_offset = 0 then
      (0, 0, [.transfer isRead gpa (min (find gpa (l + 1)).1 (l + 1)) fd_offset])
    else
      let r := io_entry_loop_go find rwRes isRead gpa fd_offset fuel
        (l + 1 - (rwRes gpa (min (find gpa (l + 1)).1 (l + 1)) fd_offset).toNat)
      (r.1, (rwRes gpa (min (find gpa (l + 1)).1 (l + 1)) fd_offset).toNat + r.2.1,
        .transfer isRead gpa (min (find gpa (l + 1)).1 (l + 1)) fd_offset :: r.2.2)

/-- Inner while loop of `vhost_user_fs_slave_io` for one entry.
`find gpa len` models `memory_region_find`: the size of the contiguous
slice resolved at `gpa` (0 = no region; `memory_region_find` clamps its
result to the request, hence the `min`) and whether the region is
read-only.  `rwRes gpa size off` models the `pread`/`pwrite` return
value (negative = `-errno`, 0 = EOF).  As in the source, neither `gpa`
nor `fd_offset` advances between iterations; only `len` shrinks.  Every
continued iteration transfers at least one byte, so `len` bounds the
number of iterations; passing it a second time as a structural fuel
argument makes the recursion structural without changing the result.
Returns `(res, done, trace)`. -/
def io_entry_loop (find : Nat → Nat → Nat × Bool) (rwRes : Nat → Nat → Nat → Int)
    (isRead : Bool) (gpa fd_offset : Nat) (len : Nat) : Int × Nat × List IoEvent :=
  io_entry_loop_go find rwRes isRead gpa fd_offset len len

/-- Entry loop of `vhost_user_fs_slave_io`
(`for (i...; i < N && !res; i++)`): skip empty entries, direction from
`flags & VHOST_USER_FS_FLAG_MAP_R`, accumulate `done`, stop on the first
entry whose walk failed. -/
def io_msg_loop (find : Nat → Nat → Nat × Bool) (rwRes : Nat → Nat → Nat → Int) :
    List SlaveEntry → Int × Nat × List IoEvent
  | [] => (0, 0, [])
  | e :: rest =>
    if e.len = 0 then io_msg_loop find rwRes rest
    else
      let isRead := decide (e.flags % 2 = 1)
      let r := io_entry_loop find rwRes isRead e.c_offset e.fd_offset e.len
      if r.1 ≠ 0 then r
      else
        let r2 := io_msg_loop find rwRes rest
        (r2.1, r.2.1 + r2.2.1, r.2.2 ++ r2.2.2)

/-- `vhost_user_fs_slave_io` (device side): closes the fd before
returning, then returns the negated errno on failure or the total bytes
transferred on success.  Note its signature: the operation never
consults the DAX `cache_size`; it resolves guest physical addresses
through system memory. -/
def vhost_user_fs_slave_io (fd : Int) (find : Nat → Nat → Nat × Bool)
    (rwRes : Nat → Nat → Nat → Int) (sm : List SlaveEntry) : Int × List IoEvent :=
  if fd < 0 then (-1, [])
  else
    let r := io_msg_loop find rwRes sm
    ((if r.1 < 0 then r.1 else (r.2.1 : Int)), r.2.2 ++ [.closeFd])

/-- Memory layout for the IO-walk scenario: every lookup resolves a slice
of at most 4096 bytes (a 4 KiB RAM block), writable. -/
def ioDemoFind (_gpa len : Nat) : Nat × Bool := (min 4096 len, false)

/-- `pread` oracle for the IO-walk scenario: every read transfers the
full requested size. -/
def ioDemoRw (_gpa size _off : Nat) : Int := (size : Int)

/-! ## Supporting lemmas -/

lemma length_iov_bytes (sg : List Iovec) : (iov_bytes sg).length = iov_size sg := by
  simp [iov_bytes, iov_size]

lemma writeAt_nil_chunk (dst : List Iovec) (pos : Nat) : writeAt dst pos [] = dst := by
  induction dst generalizing pos with
  | nil => rfl
  | cons d ds ih =>
    unfold writeAt
    by_cases h : d.length ≤ pos
    · simp [h, ih]
    · simp [h, ih, List.take_append_drop]

lemma writeAt_flatten (dst : List Iovec) (pos : Nat) (chunk : List Byte)
    (h : pos + chunk.length ≤ dst.flatten.length) :
    (writeAt dst pos chunk).flatten =
      dst.flatten.take pos ++ chunk ++ dst.flatten.drop (pos + chunk.length) := by
  induction dst generalizing pos chunk with
  | nil =>
    simp only [List.flatten_nil, List.length_nil, Nat.le_zero] at h
    have hc : chunk = [] := List.eq_nil_of_length_eq_zero (by omega)
    have hp : pos = 0 := by omega
    subst hc hp
    simp [writeAt]
  | cons d ds ih =>
    simp only [List.flatten_cons, List.length_append] at h ⊢
    by_cases hle : d.length ≤ pos
    · have hih : (pos - d.length) + chunk.length ≤ ds.flatten.length := by omega
      simp only [writeAt, hle, if_true, List.flatten_cons, ih _ _ hih]
      have htk : List.take pos (d ++ ds.flatten) = d ++ List.take (pos - d.length) ds.flatten := by
        rw [List.take_append_eq_append_take, List.take_of_length_le hle]
      have hdn : List.drop (pos + chunk.length) (d ++ ds.flatten) =
          List.drop (pos - d.length + chunk.length) ds.flatten := by
        rw [List.drop_append_eq_append_drop, List.drop_of_length_le (by omega)]
        have e1 : pos + chunk.length - d.length = pos - d.length + chunk.length := by omega
        rw [e1, List.nil_append]
      rw [htk, hdn]
      simp [List.append_assoc]
    · push_neg at hle
      by_cases hc : chunk.length ≤ d.length - pos
      · have hdrop : chunk.drop (d.length - pos) = [] :=
          List.drop_of_length_le (by omega)
        have htake : chunk.take (d.length - pos) = chunk :=
          List.take_of_length_le (by omega)
        simp only [writeAt, not_le.mpr hle, if_false, hdrop, htake, writeAt_nil_chunk,
          List.flatten_cons]
        rw [List.take_append_of_le_length (by omega),
          List.drop_append_of_le_length (by omega)]
        simp [List.append_assoc]
      · push_neg at hc
        have hih : 0 + (chunk.drop (d.length - pos)).length ≤ ds.flatten.length := by
          simp only [List.length_drop]; omega
        simp only [writeAt, not_le.mpr hle, if_false, List.flatten_cons, ih _ _ hih]
        have htk : List.take pos (d ++ ds.flatten) = List.take pos d :=
          List.take_append_of_le_length (by omega)
        have hdn : List.drop (pos + chunk.length) (d ++ ds.flatten) =
            List.drop ((chunk.drop (d.length - pos)).length) ds.flatten := by
          rw [List.drop_append_eq_append_drop, List.drop_of_length_le (by omega)]
          have e2 : pos + chunk.length - d.length = (chunk.drop (d.length - pos)).length := by
            simp only [List.length_drop]; omega
          rw [e2, List.nil_append]
        rw [htk, hdn]
        have hdd : List.drop (pos + chunk.length) d = [] := List.drop_of_length_le (by omega)
        have hjoin : chunk.take (d.length - pos) ++ (chunk.drop (d.length - pos) ++
            List.drop ((chunk.drop (d.length - pos)).length) ds.flatten) =
            chunk ++ List.drop ((chunk.drop (d.length - pos)).length) ds.flatten := by
          rw [← List.append_assoc, List.take_append_drop]
        simp only [hdd, List.take_zero, List.nil_append, List.append_nil, Nat.zero_add,
          List.append_assoc, hjoin]

lemma writeAt_map_length (dst : List Iovec) (pos : Nat) (chunk : List Byte) :
    (writeAt dst pos chunk).map List.length = dst.map List.length := by
  induction dst generalizing pos chunk with
  | nil => rfl
  | cons d ds ih =>
    unfold writeAt
    by_cases h : d.length ≤ pos
    · simp [h, ih]
    · simp only [h, if_false, List.map_cons, ih]
      congr 1
      simp only [List.length_append, List.length_take, List.length_drop]
      omega

lemma copy_iov_loop_zero (ss : List Iovec) (dst : List Iovec) (pos : Nat) :
    copy_iov_loop ss dst pos 0 = dst := by
  cases ss <;> simp [copy_iov_loop]

lemma copy_iov_loop_map_length (src dst : List Iovec) (pos toCopy : Nat) :
    (copy_iov_loop src dst pos toCopy).map List.length = dst.map List.length := by
  induction src generalizing dst pos toCopy with
  | nil => rfl
  | cons s ss ih =>
    unfold copy_iov_loop
    by_cases h : toCopy = 0
    · simp [h]
    · simp [h, ih, writeAt_map_length]

lemma copy_iov_loop_flatten (src : List Iovec) (dst : List Iovec) (pos toCopy : Nat)
    (hs : toCopy ≤ src.flatten.length) (hd : pos + toCopy ≤ dst.flatten.length) :
    (copy_iov_loop src dst pos toCopy).flatten =
      dst.flatten.take pos ++ src.flatten.take toCopy ++
        dst.flatten.drop (pos + toCopy) := by
  induction src generalizing dst pos toCopy with
  | nil =>
    simp only [List.flatten_nil, List.length_nil, Nat.le_zero] at hs
    subst hs
    simp [copy_iov_loop, List.take_append_drop]
  | cons s ss ih =>
    by_cases h0 : toCopy = 0
    · subst h0
      simp [copy_iov_loop_zero, List.take_append_drop]
    · simp only [copy_iov_loop, h0, if_false]
      simp only [List.flatten_cons, List.length_append] at hs ⊢
      by_cases hcl : toCopy ≤ s.length
      · have htc : (s.take toCopy).length = toCopy := by
          rw [List.length_take]; omega
        rw [htc, Nat.sub_self, copy_iov_loop_zero]
        have hw : pos + (s.take toCopy).length ≤ dst.flatten.length := by
          rw [htc]; omega
        rw [writeAt_flatten dst pos (s.take toCopy) hw, htc]
        rw [List.take_append_of_le_length hcl]
      · push_neg at hcl
        have hts : s.take toCopy = s := List.take_of_length_le (by omega)
        rw [hts]
        have hW : (writeAt dst pos s).flatten =
            dst.flatten.take pos ++ s ++ dst.flatten.drop (pos + s.length) :=
          writeAt_flatten dst pos s (by omega)
        have hWlen : (writeAt dst pos s).flatten.length = dst.flatten.length := by
          rw [List.length_flatten, writeAt_map_length, ← List.length_flatten]
        have ihh := ih (writeAt dst pos s) (pos + s.length) (toCopy - s.length)
          (by omega) (by rw [hWlen]; omega)
        rw [ihh, hW]
        have htkpos : (dst.flatten.take pos).length = pos := by
          rw [List.length_take]; omega
        have e1 : (dst.flatten.take pos ++ s ++ dst.flatten.drop (pos + s.length)).take
            (pos + s.length) = dst.flatten.take pos ++ s := by
          rw [List.append_assoc, List.take_append_eq_append_take, htkpos,
            List.take_of_length_le (by rw [htkpos]; omega)]
          have e : pos + s.length - pos = s.length := by omega
          rw [e, List.take_left]
        have e2 : (dst.flatten.take pos ++ s ++ dst.flatten.drop (pos + s.length)).drop
            (pos + s.length + (toCopy - s.length)) = dst.flatten.drop (pos + toCopy) := by
          rw [List.append_assoc, List.drop_append_eq_append_drop, htkpos,
            List.drop_of_length_le (by rw [htkpos]; omega), List.nil_append,
            List.drop_append_eq_append_drop,
            List.drop_of_length_le
              (by omega : s.length ≤ pos + s.length + (toCopy - s.length) - pos),
            List.nil_append, List.drop_drop]
          congr 1
          omega
        rw [e1, e2]
        have e3 : (s ++ ss.flatten).take toCopy = s ++ ss.flatten.take (toCopy - s.length) := by
          rw [List.take_append_eq_append_take, List.take_of_length_le (by omega)]
        rw [e3]
        simp [List.append_assoc]

lemma copy_iov_flatten (src dst : List Iovec) (N : Nat)
    (hs : N ≤ src.flatten.length) (hd : N ≤ dst.flatten.length) :
    (copy_iov src dst N).flatten = src.flatten.take N ++ dst.flatten.drop N := by
  unfold copy_iov
  rw [copy_iov_loop_flatten src dst 0 N hs (by omega)]
  simp

lemma copy_iov_flatten_length (src dst : List Iovec) (N : Nat) :
    (copy_iov src dst N).flatten.length = dst.flatten.length := by
  rw [List.length_flatten, copy_iov, copy_iov_loop_map_length, ← List.length_flatten]

/-! ## Claim theorems -/

/-- **C8** For every source iovec array holding at least `N` bytes and
destination iovec array with capacity at least `N` bytes, copying `N`
bytes with `copy_iov` and then copying those `N` bytes back with
`copy_iov` yields content byte-identical to the original, regardless of
how segment boundaries are aligned in either array. -/
theorem copy_iov_roundtrip (src dst back : List Iovec) (N : Nat)
    (hs : N ≤ iov_size src) (hd : N ≤ iov_size dst) (hb : N ≤ iov_size back) :
    (iov_bytes (copy_iov (copy_iov src dst N) back N)).take N =
      (iov_bytes src).take N := by
  rw [← length_iov_bytes] at hs hd hb
  simp only [iov_bytes] at hs hd hb ⊢
  have h2 : N ≤ (copy_iov src dst N).flatten.length := by
    rw [copy_iov_flatten_length]; exact hd
  rw [copy_iov_flatten _ back N h2 hb, copy_iov_flatten src dst N hs hd]
  have hl1 : ((src.flatten.take N ++ dst.flatten.drop N).take N).length = N := by
    rw [List.length_take]
    simp only [List.length_append, List.length_take, List.length_drop]
    omega
  rw [List.take_append_of_le_length (by rw [hl1])]
  rw [List.take_take, List.take_append_of_le_length (by rw [List.length_take]; omega),
    List.take_take]
  simp

/-- Witness for `copy_iov_roundtrip`: a 4-byte copy across misaligned
segment boundaries and back. -/
theorem copy_iov_roundtrip_witness :
    4 ≤ iov_size [[1, 2, 3], [4, 5]] ∧
      (iov_bytes (copy_iov (copy_iov [[1, 2, 3], [4, 5]] [[0, 0], [0, 0], [0, 0]] 4)
          [[9, 9, 9, 9, 9]] 4)).take 4 =
        (iov_bytes [[1, 2, 3], [4, 5]]).take 4 :=
  ⟨by decide,
    copy_iov_roundtrip [[1, 2, 3], [4, 5]] [[0, 0], [0, 0], [0, 0]] [[9, 9, 9, 9, 9]] 4
      (by decide) (by decide) (by decide)⟩

/-- **C5** `virtio_send_msg` (the plain reply path) validates that the
sink iovec total length admits the reply header and the full payload; on
success it gather-copies the reply into the sink iovecs, pushes and
notifies under the per-queue mutex inside a read lock on the dispatch
rwlock, and sets `reply_sent` to true; if the sink is too small it
returns `-E2BIG` without pushing and `reply_sent` remains false. -/
theorem virtio_send_msg_reply_path (notify_enabled : Bool)
    (popResult : Option (List Iovec)) (unique : Nat) (iov in_sg : List Iovec)
    (hu : unique ≠ 0) (hcount : 1 ≤ iov.length)
    (hhdr : fuse_out_header_size ≤ (iov.headD []).length) :
    (iov_size in_sg < fuse_out_header_size ∨ iov_size in_sg < iov_size iov →
      (virtio_send_msg notify_enabled popResult unique iov false in_sg).ret = -E2BIG ∧
      (virtio_send_msg notify_enabled popResult unique iov false in_sg).events = [] ∧
      (virtio_send_msg notify_enabled popResult unique iov false in_sg).reply_sent = false ∧
      (virtio_send_msg notify_enabled popResult unique iov false in_sg).sink = in_sg) ∧
    (fuse_out_header_size ≤ iov_size in_sg → iov_size iov ≤ iov_size in_sg →
      (virtio_send_msg notify_enabled popResult unique iov false in_sg).ret = 0 ∧
      (virtio_send_msg notify_enabled popResult unique iov false in_sg).events =
        [.rdlock, .vqLock, .pushReq (iov_size iov), .notifyReq, .vqUnlock, .rdunlock] ∧
      (virtio_send_msg notify_enabled popResult unique iov false in_sg).reply_sent = true ∧
      iov_bytes (virtio_send_msg notify_enabled popResult unique iov false in_sg).sink =
        iov_bytes iov ++ (iov_bytes in_sg).drop (iov_size iov)) := by
  constructor
  · intro hsmall
    rcases hsmall with hs1 | hs2
    · simp [virtio_send_msg, hu, hs1]
    · by_cases hs1 : iov_size in_sg < fuse_out_header_size
      · simp [virtio_send_msg, hu, hs1]
      · simp [virtio_send_msg, hu, hs1, hs2]
  · intro h1 h2
    have hn1 : ¬iov_size in_sg < fuse_out_header_size := not_lt.mpr h1
    have hn2 : ¬iov_size in_sg < iov_size iov := not_lt.mpr h2
    refine ⟨by simp [virtio_send_msg, hu, hn1, hn2],
      by simp [virtio_send_msg, hu, hn1, hn2],
      by simp [virtio_send_msg, hu, hn1, hn2], ?_⟩
    have hsink : (virtio_send_msg notify_enabled popResult unique iov false in_sg).sink =
        copy_iov iov in_sg (iov_size iov) := by
      simp [virtio_send_msg, hu, hn1, hn2]
    rw [hsink]
    have hs : iov_size iov ≤ iov.flatten.length := by
      rw [← length_iov_bytes iov]; simp [iov_bytes]
    have hd : iov_size iov ≤ in_sg.flatten.length := by
      have := length_iov_bytes in_sg
      simp only [iov_bytes] at this
      omega
    simp only [iov_bytes]
    rw [copy_iov_flatten iov in_sg (iov_size iov) hs hd]
    have hflat : iov.flatten.length = iov_size iov := by
      have := length_iov_bytes iov
      simpa [iov_bytes] using this
    rw [List.take_of_length_le (le_of_eq hflat)]

/-- Witness for `virtio_send_msg_reply_path`: a 20-byte reply into a
24-byte sink succeeds; a 30-byte reply into the same sink fails. -/
theorem virtio_send_msg_reply_path_witness :
    (iov_size [List.replicate 24 0] < fuse_out_header_size ∨
      iov_size [List.replicate 24 0] < iov_size [List.replicate 20 1] →
      (virtio_send_msg false none 7 [List.replicate 20 1] false
        [List.replicate 24 0]).ret = -E2BIG ∧
      (virtio_send_msg false none 7 [List.replicate 20 1] false
        [List.replicate 24 0]).events = [] ∧
      (virtio_send_msg false none 7 [List.replicate 20 1] false
        [List.replicate 24 0]).reply_sent = false ∧
      (virtio_send_msg false none 7 [List.replicate 20 1] false
        [List.replicate 24 0]).sink = [List.replicate 24 0]) ∧
    (fuse_out_header_size ≤ iov_size [List.replicate 24 0] →
      iov_size [List.replicate 20 1] ≤ iov_size [List.replicate 24 0] →
      (virtio_send_msg false none 7 [List.replicate 20 1] false
        [List.replicate 24 0]).ret = 0 ∧
      (virtio_send_msg false none 7 [List.replicate 20 1] false
        [List.replicate 24 0]).events =
        [.rdlock, .vqLock, .pushReq (iov_size [List.replicate 20 1]), .notifyReq,
          .vqUnlock, .rdunlock] ∧
      (virtio_send_msg false none 7 [List.replicate 20 1] false
        [List.replicate 24 0]).reply_sent = true ∧
      iov_bytes (virtio_send_msg false none 7 [List.replicate 20 1] false
        [List.replicate 24 0]).sink =
        iov_bytes [List.replicate 20 1] ++
          (iov_bytes [List.replicate 24 0]).drop (iov_size [List.replicate 20 1])) :=
  virtio_send_msg_reply_path false none 7 [List.replicate 20 1] [List.replicate 24 0]
    (by decide) (by decide) (by decide)

/-- **C9** If `virtio_send_msg` is called with a message whose
`fuse_out_header.unique` field is zero (a notification) while the
session's notification-enabled flag is false, it returns `-EOPNOTSUPP`
and pops nothing from any queue (its event trace is empty and the
request element is untouched). -/
theorem virtio_send_msg_notify_disabled (popResult : Option (List Iovec))
    (iov in_sg : List Iovec) (reply_sent0 : Bool) (unique : Nat) (hu : unique = 0) :
    (virtio_send_msg false popResult unique iov reply_sent0 in_sg).ret = -EOPNOTSUPP ∧
    (virtio_send_msg false popResult unique iov reply_sent0 in_sg).events = [] ∧
    (∀ ok, Event.popNotifyQueue ok ∉
      (virtio_send_msg false popResult unique iov reply_sent0 in_sg).events) ∧
    (virtio_send_msg false popResult unique iov reply_sent0 in_sg).reply_sent =
      reply_sent0 ∧
    (virtio_send_msg false popResult unique iov reply_sent0 in_sg).sink = in_sg := by
  subst hu
  simp [virtio_send_msg, virtio_send_notify_msg]

/-- Witness for `virtio_send_msg_notify_disabled`. -/
theorem virtio_send_msg_notify_disabled_witness :
    (virtio_send_msg false (some [List.replicate 64 0]) 0 [List.replicate 16 2] false
      [List.replicate 64 0]).ret = -EOPNOTSUPP ∧
    (virtio_send_msg false (some [List.replicate 64 0]) 0 [List.replicate 16 2] false
      [List.replicate 64 0]).events = [] ∧
    (∀ ok, Event.popNotifyQueue ok ∉
      (virtio_send_msg false (some [List.replicate 64 0]) 0 [List.replicate 16 2] false
        [List.replicate 64 0]).events) ∧
    (virtio_send_msg false (some [List.replicate 64 0]) 0 [List.replicate 16 2] false
      [List.replicate 64 0]).reply_sent = false ∧
    (virtio_send_msg false (some [List.replicate 64 0]) 0 [List.replicate 16 2] false
      [List.replicate 64 0]).sink = [List.replicate 64 0] :=
  virtio_send_msg_notify_disabled (some [List.replicate 64 0]) [List.replicate 16 2]
    [List.replicate 64 0] false 0 rfl

/-- **C4 (counterexample)** The claim's preconditions — readable prefix
at least a `fuse_in_header` and total *readable* bytes within the
session buffer — do not make the fatal branch unreachable: with
`bufsize = 100` and out iovec lengths `[40, 80]` of which the last is
unmappable (`bad_out_num = 1`), the readable prefix is 40 ≥ 40 and
within the buffer, yet the worker panics because the check at
fuse_virtio.c:610 bounds the *total* length `out_len`, not the readable
length. -/
theorem fv_worker_fatal_readable_cex :
    fuse_in_header_size ≤ ([40, 80].take ([40, 80].length - 1)).sum ∧
    ([40, 80].take ([40, 80].length - 1)).sum ≤ 100 ∧
    fv_worker_fatal 100 [40, 80] 1 = true := by decide

/-- **C4 (amended)** For every popped request, the queue worker enforces
two preconditions before dispatch: (1) the readable prefix of the out
iovecs (`out_num - bad_out_num` entries) totals at least the size of a
`fuse_in_header`, and (2) the total bytes of *all* out iovecs (readable
and unmappable together) do not exceed the session's buffer size; any
violation is fatal, and under these preconditions the fatal branch is
unreachable. -/
theorem fv_worker_fatal_unreachable (bufsize : Nat) (outLens : List Nat)
    (bad_out_num : Nat)
    (h1 : fuse_in_header_size ≤ (outLens.take (outLens.length - bad_out_num)).sum)
    (h2 : outLens.sum ≤ bufsize) :
    fv_worker_fatal bufsize outLens bad_out_num = false := by
  simp only [fv_worker_fatal, Bool.or_eq_false_iff, decide_eq_false_iff_not, not_lt]
  exact ⟨h1, h2⟩

/-- Witness for `fv_worker_fatal_unreachable`: a 40-byte request with a
64-byte unmappable tail against a 120-byte session buffer. -/
theorem fv_worker_fatal_unreachable_witness :
    fv_worker_fatal 120 [40, 64] 1 = false :=
  fv_worker_fatal_unreachable 120 [40, 64] 1 (by decide) (by decide)

/-- Characterization of the mappable-path selection as a propositional
`if`. -/
lemma fv_mappable_bufv_eq (out_sg : List Iovec) (opcode : Nat) :
    fv_mappable_bufv out_sg opcode =
      if 2 < out_sg.length ∧ (out_sg.headD []).length = fuse_in_header_size ∧
          opcode = FUSE_WRITE ∧ (out_sg.getD 1 []).length = fuse_write_in_size
      then ⟨out_sg.headD [] ++ out_sg.getD 1 [], out_sg.drop 2⟩
      else ⟨iov_bytes out_sg, []⟩ := by
  unfold fv_mappable_bufv
  cases h : (decide (2 < out_sg.length) &&
      decide ((out_sg.headD []).length = fuse_in_header_size) &&
      decide (opcode = FUSE_WRITE) &&
      decide ((out_sg.getD 1 []).length = fuse_write_in_size)) with
  | false =>
    simp only [h, Bool.false_eq_true, if_false]
    rw [if_neg]
    rintro ⟨p1, p2, p3, p4⟩
    rw [decide_eq_true p1, decide_eq_true p2, decide_eq_true p3, decide_eq_true p4] at h
    simp at h
  | true =>
    simp only [h, if_true]
    rw [if_pos]
    simp only [Bool.and_eq_true, decide_eq_true_eq] at h
    exact ⟨h.1.1.1, h.1.1.2, h.1.2, h.2⟩

/-- **C7** A fully mappable WRITE request (`bad_in_num = bad_out_num = 0`)
whose out iovecs number exactly 2 takes the generic gather-copy path; the
zero-copy write fast path is taken exactly when `out_num > 2`, the first
iovec is exactly the size of `fuse_in_header`, the second is exactly the
size of `fuse_write_in`, and the decoded opcode is `FUSE_WRITE`, in which
case both headers are copied to the bounce buffer and the remaining
iovecs are exposed in place as buffer-vector entries pointing at guest
memory. -/
theorem fv_write_fast_path_selection (out_sg : List Iovec) (opcode : Nat) :
    (out_sg.length = 2 →
      fv_reconstruct 0 0 out_sg opcode = some ⟨iov_bytes out_sg, []⟩) ∧
    ((2 < out_sg.length ∧ (out_sg.headD []).length = fuse_in_header_size ∧
        opcode = FUSE_WRITE ∧ (out_sg.getD 1 []).length = fuse_write_in_size) →
      fv_reconstruct 0 0 out_sg opcode =
        some ⟨out_sg.headD [] ++ out_sg.getD 1 [], out_sg.drop 2⟩) ∧
    (¬(2 < out_sg.length ∧ (out_sg.headD []).length = fuse_in_header_size ∧
        opcode = FUSE_WRITE ∧ (out_sg.getD 1 []).length = fuse_write_in_size) →
      fv_reconstruct 0 0 out_sg opcode = some ⟨iov_bytes out_sg, []⟩) := by
  have hre : fv_reconstruct 0 0 out_sg opcode = some (fv_mappable_bufv out_sg opcode) := by
    simp [fv_reconstruct]
  refine ⟨?_, ?_, ?_⟩
  · intro h2
    rw [hre, fv_mappable_bufv_eq, if_neg]
    rintro ⟨h, -⟩
    omega
  · intro hcond
    rw [hre, fv_mappable_bufv_eq, if_pos hcond]
  · intro hnot
    rw [hre, fv_mappable_bufv_eq, if_neg hnot]

/-- Witness for `fv_write_fast_path_selection`: a request with three out
iovecs shaped `fuse_in_header`/`fuse_write_in`/payload and opcode
`FUSE_WRITE`; the fast-path branch of the theorem applies and the other
two hold vacuously or by evaluation. -/
theorem fv_write_fast_path_selection_witness :
    fv_reconstruct 0 0 [List.replicate 40 1, List.replicate 40 2, [7, 7, 7]]
        FUSE_WRITE =
      some ⟨([List.replicate 40 1, List.replicate 40 2, [7, 7, 7]] : List Iovec).headD
          [] ++
          ([List.replicate 40 1, List.replicate 40 2, [7, 7, 7]] : List Iovec).getD 1 [],
        ([List.replicate 40 1, List.replicate 40 2, [7, 7, 7]] : List Iovec).drop 2⟩ :=
  (fv_write_fast_path_selection [List.replicate 40 1, List.replicate 40 2, [7, 7, 7]]
    FUSE_WRITE).2.1 (by decide)

/-- After a successful reply, the `assert(!req->reply_sent)` makes any
further reply attempt a no-op for this element (the process would abort
before pushing), and notification attempts never touch it. -/
lemma attempt_send_true (in_sg : List Iovec) (bad_in_num : Nat) (a : Attempt) :
    attempt_send true in_sg bad_in_num a = (true, none) := by
  cases a with
  | reply iov unique =>
    by_cases h : unique = 0 <;> simp [attempt_send, h]
  | dataReply iov bodyLen loopRes =>
    simp [attempt_send]

/-- Starting unsent, one session call either leaves the element unsent
with no push, or sends the reply with exactly one push. -/
lemma attempt_send_false_shape (in_sg : List Iovec) (bad_in_num : Nat) (a : Attempt) :
    attempt_send false in_sg bad_in_num a = (false, none) ∨
    ∃ n, attempt_send false in_sg bad_in_num a = (true, some n) := by
  cases a with
  | reply iov unique =>
    by_cases h0 : unique = 0
    · exact Or.inl (by simp [attempt_send, h0])
    · by_cases h1 : iov_size in_sg < fuse_out_header_size
      · exact Or.inl (by simp [attempt_send, h0, h1])
      · by_cases h2 : iov_size in_sg < iov_size iov
        · exact Or.inl (by simp [attempt_send, h0, h1, h2])
        · exact Or.inr ⟨iov_size iov, by simp [attempt_send, h0, h1, h2]⟩
  | dataReply iov bodyLen loopRes =>
    by_cases h1 : iov_size (in_sg.take (in_sg.length - bad_in_num)) < fuse_out_header_size
    · exact Or.inl (by simp [attempt_send, h1])
    · by_cases h2 : iov_size in_sg < iov_size iov + bodyLen
      · exact Or.inl (by simp [attempt_send, h1, h2])
      · cases loopRes with
        | fail e => exact Or.inl (by simp [attempt_send, h1, h2])
        | fin remaining =>
          exact Or.inr ⟨iov_size iov + bodyLen - remaining,
            by simp [attempt_send, h1, h2]⟩

lemma foldl_session_step_true (in_sg : List Iovec) (bad_in_num : Nat)
    (attempts : List Attempt) (acc : List Nat) :
    attempts.foldl (session_step in_sg bad_in_num) (true, acc) = (true, acc) := by
  induction attempts generalizing acc with
  | nil => rfl
  | cons a rest ih =>
    simp only [List.foldl_cons, session_step, attempt_send_true, ih]

lemma foldl_session_step_false (in_sg : List Iovec) (bad_in_num : Nat)
    (attempts : List Attempt) (acc : List Nat) :
    attempts.foldl (session_step in_sg bad_in_num) (false, acc) =
      match firstReplyLen in_sg bad_in_num attempts with
      | none => (false, acc)
      | some n => (true, acc ++ [n]) := by
  induction attempts generalizing acc with
  | nil => rfl
  | cons a rest ih =>
    rcases attempt_send_false_shape in_sg bad_in_num a with h | ⟨n, h⟩
    · simp only [List.foldl_cons, session_step, h, firstReplyLen, ih]
    · simp only [List.foldl_cons, session_step, h, firstReplyLen,
        foldl_session_step_true]

/-- **C1** For every descriptor chain popped from a request queue and
handed to the queue worker (one that passes the fatal checks and the
unmappable-layout selection, so the worker completes), exactly one push
of that element back to the queue occurs: the element is pushed once,
with length equal to the length of the first (and only) successful
reply the session sent through `virtio_send_msg` /
`virtio_send_data_iov` — the byte count written to the sink — or zero
when no reply was sent.  This holds on every path, including when the
session's notification sends fail: those operate on the notification
queue and never on this element. -/
theorem fv_queue_worker_one_push (bufsize : Nat) (out_sg : List Iovec)
    (bad_out_num bad_in_num opcode : Nat) (in_sg : List Iovec)
    (attempts : List Attempt) (ps : List Nat)
    (h : fv_queue_worker_pushes bufsize out_sg bad_out_num bad_in_num opcode in_sg
      attempts = some ps) :
    ps = [(firstReplyLen in_sg bad_in_num attempts).getD 0] ∧ ps.length = 1 := by
  unfold fv_queue_worker_pushes at h
  by_cases hf : fv_worker_fatal bufsize (out_sg.map List.length) bad_out_num = true
  · rw [if_pos hf] at h
    exact absurd h (by simp)
  · rw [if_neg hf] at h
    cases hre : fv_reconstruct bad_in_num bad_out_num out_sg opcode with
    | none => rw [hre] at h; exact absurd h (by simp)
    | some bufv =>
      rw [hre] at h
      have hps : ps = worker_recycle in_sg bad_in_num attempts := by
        injection h with h'
        exact h'.symm
      subst hps
      unfold worker_recycle session_calls
      rw [foldl_session_step_false]
      cases hfr : firstReplyLen in_sg bad_in_num attempts with
      | none => simp
      | some n => simp

/-- Witness for `fv_queue_worker_one_push`: a 40-byte GETATTR-style
request whose session sends one 20-byte reply; the element is pushed
exactly once with length 20. -/
theorem fv_queue_worker_one_push_witness :
    [20] = [(firstReplyLen [List.replicate 24 0] 0
        [Attempt.reply [List.replicate 20 1] 7]).getD 0] ∧
      ([20] : List Nat).length = 1 :=
  fv_queue_worker_one_push 100 [List.replicate 40 3] 0 0 0 [List.replicate 24 0]
    [Attempt.reply [List.replicate 20 1] 7] [20] (by decide)

/-- Entry-loop behaviour of `vhost_user_fs_slave_map` at the first
failing entry: the result is negative, and every recorded mapping is a
successful earlier non-empty entry. -/
lemma map_loop_first_failure (cache_size : Nat) (mmapErr : Nat → Option Nat) :
    ∀ (sm : List SlaveEntry) (i j : Nat) (e : SlaveEntry),
      sm[j]? = some e → e.len ≠ 0 →
      (badRange cache_size e.c_offset e.len = true ∨
        ∃ err, mmapErr (i + j) = some err ∧ 0 < err) →
      (∀ k, k < j → ∀ e', sm[k]? = some e' → e'.len ≠ 0 →
        badRange cache_size e'.c_offset e'.len = false ∧ mmapErr (i + k) = none) →
      (map_loop cache_size mmapErr i sm).1 < 0 ∧
      ∀ ev ∈ (map_loop cache_size mmapErr i sm).2,
        ∃ k e', ev = MapEvent.mmapFixed (i + k) e' ∧ k < j ∧ sm[k]? = some e' ∧
          e'.len ≠ 0 := by
  intro sm
  induction sm with
  | nil =>
    intro i j e hj
    simp at hj
  | cons e0 rest ih =>
    intro i j e hj hne hfail hok
    by_cases h0 : e0.len = 0
    · cases j with
      | zero =>
        rw [List.getElem?_cons_zero] at hj
        injection hj with hj
        subst hj
        exact absurd h0 hne
      | succ j' =>
        rw [List.getElem?_cons_succ] at hj
        have hfail' : badRange cache_size e.c_offset e.len = true ∨
            ∃ err, mmapErr ((i + 1) + j') = some err ∧ 0 < err := by
          rcases hfail with h | ⟨err, herr, hpos⟩
          · exact Or.inl h
          · exact Or.inr ⟨err, by rwa [show (i + 1) + j' = i + (j' + 1) by omega], hpos⟩
        have hok' : ∀ k, k < j' → ∀ e', rest[k]? = some e' → e'.len ≠ 0 →
            badRange cache_size e'.c_offset e'.len = false ∧
              mmapErr ((i + 1) + k) = none := by
          intro k hk e' he' hne'
          have hthis := hok (k + 1) (by omega) e' (by rwa [List.getElem?_cons_succ]) hne'
          have h2 := hthis.2
          rw [show i + (k + 1) = (i + 1) + k by omega] at h2
          exact ⟨hthis.1, h2⟩
        have hih := ih (i + 1) j' e hj hne hfail' hok'
        simp only [map_loop, h0, if_true]
        refine ⟨hih.1, ?_⟩
        intro ev hev
        obtain ⟨k, e', hev', hk, he', hne'⟩ := hih.2 ev hev
        exact ⟨k + 1, e', by rwa [show i + (k + 1) = (i + 1) + k by omega], by omega,
          by rwa [List.getElem?_cons_succ], hne'⟩
    · cases j with
      | zero =>
        rw [List.getElem?_cons_zero] at hj
        injection hj with hj
        subst hj
        by_cases hbad : badRange cache_size e0.c_offset e0.len = true
        · simp only [map_loop, h0, if_false, hbad, if_true]
          exact ⟨by norm_num, by simp⟩
        · rcases hfail with h | ⟨err, herr, hpos⟩
          · exact absurd h hbad
          · rw [Nat.add_zero] at herr
            have hbadf : badRange cache_size e0.c_offset e0.len = false :=
              Bool.not_eq_true _ ▸ eq_false_of_ne_true hbad
            simp only [map_loop, h0, if_false, hbadf, Bool.false_eq_true, herr]
            exact ⟨by omega, by simp⟩
      | succ j' =>
        rw [List.getElem?_cons_succ] at hj
        have hhd := hok 0 (by omega) e0 (by rw [List.getElem?_cons_zero]) h0
        rw [Nat.add_zero] at hhd
        have hfail' : badRange cache_size e.c_offset e.len = true ∨
            ∃ err, mmapErr ((i + 1) + j') = some err ∧ 0 < err := by
          rcases hfail with h | ⟨err, herr, hpos⟩
          · exact Or.inl h
          · exact Or.inr ⟨err, by rwa [show (i + 1) + j' = i + (j' + 1) by omega], hpos⟩
        have hok' : ∀ k, k < j' → ∀ e', rest[k]? = some e' → e'.len ≠ 0 →
            badRange cache_size e'.c_offset e'.len = false ∧
              mmapErr ((i + 1) + k) = none := by
          intro k hk e' he' hne'
          have hthis := hok (k + 1) (by omega) e' (by rwa [List.getElem?_cons_succ]) hne'
          have h2 := hthis.2
          rw [show i + (k + 1) = (i + 1) + k by omega] at h2
          exact ⟨hthis.1, h2⟩
        have hih := ih (i + 1) j' e hj hne hfail' hok'
        simp only [map_loop, h0, if_false, hhd.1, Bool.false_eq_true, hhd.2]
        refine ⟨hih.1, ?_⟩
        intro ev hev
        rw [List.mem_cons] at hev
        rcases hev with hev | hev
        · exact ⟨0, e0, by rw [hev, Nat.add_zero], by omega,
            by rw [List.getElem?_cons_zero], h0⟩
        · obtain ⟨k, e', hev', hk, he', hne'⟩ := hih.2 ev hev
          exact ⟨k + 1, e', by rwa [show i + (k + 1) = (i + 1) + k by omega], by omega,
            by rwa [List.getElem?_cons_succ], hne'⟩

/-- **C2** For every slave MAP message: each entry with `len = 0` is
skipped; an entry whose interval `c_offset + len` wraps in u64 or
exceeds `cache_size` is rejected; on the first entry's failure (bounds
or mmap) `vhost_user_fs_slave_map` stops — every recorded mapping
belongs to an earlier non-empty successful entry — invokes
`vhost_user_fs_slave_unmap` over the same message as best-effort
rollback, and returns a negative errno-style result. -/
theorem slave_map_stops_and_rolls_back (cache_size : Nat) (fd : Int)
    (mmapErr : Nat → Option Nat) (sm : List SlaveEntry)
    (hcs : cache_size ≠ 0) (hfd : 0 ≤ fd) (j : Nat) (e : SlaveEntry)
    (hj : sm[j]? = some e) (hne : e.len ≠ 0)
    (hfail : badRange cache_size e.c_offset e.len = true ∨
      ∃ err, mmapErr j = some err ∧ 0 < err)
    (hok : ∀ k, k < j → ∀ e', sm[k]? = some e' → e'.len ≠ 0 →
      badRange cache_size e'.c_offset e'.len = false ∧ mmapErr k = none) :
    (vhost_user_fs_slave_map cache_size fd mmapErr sm).1 < 0 ∧
    ∃ pre, (vhost_user_fs_slave_map cache_size fd mmapErr sm).2 =
        pre ++ [MapEvent.rollbackUnmap sm] ∧
      ∀ ev ∈ pre, ∃ k e', ev = MapEvent.mmapFixed k e' ∧ k < j ∧
        sm[k]? = some e' ∧ e'.len ≠ 0 := by
  have hml := map_loop_first_failure cache_size mmapErr sm 0 j e hj hne
    (by simpa using hfail) (by simpa using hok)
  have hne0 : ¬(map_loop cache_size mmapErr 0 sm).1 = 0 := by
    have := hml.1
    omega
  constructor
  · simp only [vhost_user_fs_slave_map, hcs, if_false, not_lt.mpr hfd, ne_eq, hne0,
      not_false_eq_true, if_true]
    exact hml.1
  · refine ⟨(map_loop cache_size mmapErr 0 sm).2, ?_, ?_⟩
    · simp only [vhost_user_fs_slave_map, hcs, if_false, not_lt.mpr hfd, ne_eq, hne0,
        not_false_eq_true, if_true]
    · intro ev hev
      obtain ⟨k, e', hev', hk, he', hne'⟩ := hml.2 ev hev
      exact ⟨k, e', by simpa using hev', hk, he', hne'⟩

/-- Witness for `slave_map_stops_and_rolls_back`: a 4096-byte cache, a
message whose entry 1 maps `[0, 4096)` successfully and whose entry 2 is
out of bounds; the call fails and rolls back. -/
theorem slave_map_stops_and_rolls_back_witness :
    (vhost_user_fs_slave_map 4096 0 (fun _ => none)
      [⟨0, 0, 0, 0⟩, ⟨1, 0, 0, 4096⟩, ⟨1, 0, 4096, 4096⟩]).1 < 0 ∧
    ∃ pre, (vhost_user_fs_slave_map 4096 0 (fun _ => none)
        [⟨0, 0, 0, 0⟩, ⟨1, 0, 0, 4096⟩, ⟨1, 0, 4096, 4096⟩]).2 =
        pre ++ [MapEvent.rollbackUnmap
          [⟨0, 0, 0, 0⟩, ⟨1, 0, 0, 4096⟩, ⟨1, 0, 4096, 4096⟩]] ∧
      ∀ ev ∈ pre, ∃ k e', ev = MapEvent.mmapFixed k e' ∧ k < 2 ∧
        ([⟨0, 0, 0, 0⟩, ⟨1, 0, 0, 4096⟩, ⟨1, 0, 4096, 4096⟩] :
          List SlaveEntry)[k]? = some e' ∧ e'.len ≠ 0 :=
  slave_map_stops_and_rolls_back 4096 0 (fun _ => none)
    [⟨0, 0, 0, 0⟩, ⟨1, 0, 0, 4096⟩, ⟨1, 0, 4096, 4096⟩] (by decide) (by decide) 2
    ⟨1, 0, 4096, 4096⟩ (by decide) (by decide) (Or.inl (by decide))
    (by
      intro k hk e' he' hne'
      interval_cases k
      · rw [List.getElem?_cons_zero] at he'
        injection he' with he'
        subst he'
        exact absurd rfl hne'
      · rw [List.getElem?_cons_succ, List.getElem?_cons_zero] at he'
        injection he' with he'
        subst he'
        exact ⟨by decide, rfl⟩)

/-- The message left in the caller's memory by the unmap entry loop:
every non-empty `len = ~0` entry has been rewritten to `cache_size`,
everything else is untouched. -/
lemma unmap_loop_msg (cache_size : Nat) (munmapErr : Nat → Option Nat) :
    ∀ (sm : List SlaveEntry) (i : Nat) (res : Int),
      (unmap_loop cache_size munmapErr i sm res).2 =
        sm.map (fun e => if e.len = U64MAX then { e with len := cache_size } else e) := by
  intro sm
  induction sm with
  | nil => intro i res; rfl
  | cons e rest ih =>
    intro i res
    by_cases h0 : e.len = 0
    · simp only [unmap_loop, h0, if_true, List.map_cons, ih]
      rw [if_neg (by decide : ¬(0 : Nat) = U64MAX)]
    · simp only [unmap_loop, h0, if_false, List.map_cons]
      split_ifs <;> simp [ih]

/-- **C10** `vhost_user_fs_slave_unmap` mutates the caller's slave
message in place: with the DAX cache present, every entry whose `len` is
all-ones is rewritten to `cache_size` before bounds checking, so after
the call the caller observes the rewritten lengths (in particular, a MAP
rollback that reuses the same message sees them); all other entries and
all other fields (`flags`, `fd_offset`, `c_offset`) are unchanged. -/
theorem slave_unmap_rewrites_in_place (cache_size : Nat)
    (munmapErr : Nat → Option Nat) (sm : List SlaveEntry) (hcs : cache_size ≠ 0) :
    (vhost_user_fs_slave_unmap cache_size munmapErr sm).2 =
      sm.map (fun e => if e.len = U64MAX then { e with len := cache_size } else e) := by
  unfold vhost_user_fs_slave_unmap
  rw [if_neg hcs]
  exact unmap_loop_msg cache_size munmapErr sm 0 0

/-- Witness for `slave_unmap_rewrites_in_place`: a whole-cache entry is
rewritten to the 4096-byte cache size, the other entry (including its
other fields) is untouched. -/
theorem slave_unmap_rewrites_in_place_witness :
    (vhost_user_fs_slave_unmap 4096 (fun _ => none)
        [⟨0, 0, 0, U64MAX⟩, ⟨5, 1, 2, 3⟩]).2 =
      [⟨0, 0, 0, 4096⟩, ⟨5, 1, 2, 3⟩] :=
  (slave_unmap_rewrites_in_place 4096 (fun _ => none)
    [⟨0, 0, 0, U64MAX⟩, ⟨5, 1, 2, 3⟩] (by decide)).trans (by decide)

/-- **C3 (counterexample)** `vhost_user_fs_slave_io` does not consult
`cache_size` at all (it has no such parameter: the C code never reads
`fs->conf.cache_size`): in a device configured with `cache_size = 0`, an
IO message with a valid fd whose entries are all empty returns 0 — a
success in the errno-style convention — contradicting the claim that IO
fails whenever the cache size is zero. -/
theorem slave_io_ignores_cache_cex :
    vhost_user_fs_slave_io 3 (fun _ _ => (0, false)) (fun _ _ _ => 0)
        [⟨0, 0, 0, 0⟩] = (0, [IoEvent.closeFd]) ∧
      ¬(vhost_user_fs_slave_io 3 (fun _ _ => (0, false)) (fun _ _ _ => 0)
        [⟨0, 0, 0, 0⟩]).1 < 0 := by
  constructor
  · rfl
  · rw [show (vhost_user_fs_slave_io 3 (fun _ _ => (0, false)) (fun _ _ _ => 0)
      [⟨0, 0, 0, 0⟩]).1 = 0 from rfl]
    omega

/-- **C3 (amended)** When the device's `cache_size` is zero:
`vhost_user_fs_slave_map` and `vhost_user_fs_slave_sync` return failure
(`(uint64_t)-1`), and `vhost_user_fs_slave_unmap` whose first entry has
`len` all-ones returns success (0) without touching the message;
`vhost_user_fs_slave_io` performs no `cache_size` check (it operates on
guest RAM through system memory, not on the DAX cache). -/
theorem slave_ops_zero_cache_size (fd : Int)
    (mmapErr munmapErr msyncErr : Nat → Option Nat)
    (sm sm' : List SlaveEntry) (e : SlaveEntry) (he : e.len = U64MAX) :
    vhost_user_fs_slave_map 0 fd mmapErr sm = (-1, []) ∧
    vhost_user_fs_slave_sync 0 msyncErr sm = -1 ∧
    vhost_user_fs_slave_unmap 0 munmapErr (e :: sm') = (0, e :: sm') := by
  refine ⟨by simp [vhost_user_fs_slave_map], by simp [vhost_user_fs_slave_sync], ?_⟩
  simp [vhost_user_fs_slave_unmap, he]

/-- Witness for `slave_ops_zero_cache_size`. -/
theorem slave_ops_zero_cache_size_witness :
    vhost_user_fs_slave_map 0 5 (fun _ => none) [⟨1, 0, 0, 64⟩] = (-1, []) ∧
    vhost_user_fs_slave_sync 0 (fun _ => none) [⟨1, 0, 0, 64⟩] = -1 ∧
    vhost_user_fs_slave_unmap 0 (fun _ => none) (⟨0, 0, 0, U64MAX⟩ :: []) =
      (0, ⟨0, 0, 0, U64MAX⟩ :: []) :=
  slave_ops_zero_cache_size 5 (fun _ => none) (fun _ => none) (fun _ => none)
    [⟨1, 0, 0, 64⟩] [] ⟨0, 0, 0, U64MAX⟩ (by decide)

/-- **C6 (code bug)** Evaluation of `vhost_user_fs_slave_io` at an entry
whose 8192-byte guest range spans two 4096-byte slices, with `pread`
always transferring the full requested size: the loop resolves the slice
at guest address 0 with file offset 0 *twice* — it never advances `gpa`
or `fd_offset` by the bytes already transferred — and reports 8192 bytes
done, although guest bytes `[4096, 8192)` and file bytes `[4096, 8192)`
were never touched.  The claim (and §4.H of the spec) says the loop
walks the range `c_offset` for `len` bytes resolving successive
contiguous slices. -/
theorem slave_io_walk_never_advances :
    vhost_user_fs_slave_io 3 ioDemoFind ioDemoRw [⟨1, 0, 0, 8192⟩] =
      (8192, [IoEvent.transfer true 0 4096 0, IoEvent.transfer true 0 4096 0,
        IoEvent.closeFd]) := by
  decide
